import Mathlib

/-!
Shallow embedding of the multiplayer relay server (main.go and the unnamed
variant part_000) and proofs about its registry, dispatcher, broadcast
engine, classifier and reaper.

Modelling conventions:
* Timestamps are natural numbers (nanoseconds for id generation, seconds for
  the reaper's inactivity arithmetic); Go duration comparison
  now.Sub(lastSeen) > time.Minute becomes now - lastSeen > 60 with
  truncating Nat subtraction, matching the sign behaviour of the Go code.
* A connection is named by an opaque string; Player.conn holds the name of
  the connection owned by that session (Conn is assigned at admission and is
  never nil, so it is modelled as a plain string rather than an option).
* I/O is modelled as a list of events: a write of bytes to a connection, a
  log line on the server console, or (the scheduling of) a connection close.
* Write failures are an environment input: a predicate on connection names
  saying which writes fail.  The Go code inspects the error only to log it
  (main.go) or to additionally schedule a close (part_000).
-/

namespace ForcedEntry

/-- One admitted connection, mirroring the Go struct Player
(ID, Conn, Position, Rotation, LastSeen, Username, IsReal). -/
structure Player where
  id : String
  conn : String
  position : String
  rotation : String
  lastSeen : Nat
  username : String
  isReal : Bool
deriving DecidableEq, Repr

/-- Observable effects of the server code: bytes written to a connection,
a console log line, or the closing of a connection. -/
inductive Event where
  | write (recip : String) (data : String)
  | log (text : String)
  | close (recip : String)
deriving DecidableEq, Repr

/-- The registry Lobby.Players, a map from player id to Player, modelled as
an association list keyed by Player.id. -/
abbrev Lobby := List Player

/-- Embedding of strings.HasPrefix over the character lists of the strings. -/
def hasPre (s pre : String) : Bool :=
  pre.data.isPrefixOf s.data

/-- Embedding of strings.Contains over the character lists of the strings. -/
def containsSub (s pat : String) : Bool :=
  subOccurs pat.data s.data
where
  subOccurs (pat : List Char) : List Char → Bool
    | [] => pat.isEmpty
    | c :: cs => pat.isPrefixOf (c :: cs) || subOccurs pat cs

/-- Helper for splitFirstColon: scan for the first colon, accumulating the
characters seen so far (in reverse). -/
def splitFirstColonAux (acc : List Char) : List Char → Option (List Char × List Char)
  | [] => none
  | c :: cs => if c = ':' then some (acc.reverse, cs) else splitFirstColonAux (c :: acc) cs

/-- Embedding of parts := strings.SplitN(message, ":", 2): none when the
string has no colon (the Go code then sees len(parts) < 2 and discards the
line), otherwise the text before the first colon and the rest after it. -/
def splitFirstColon (s : String) : Option (String × String) :=
  match splitFirstColonAux [] s.data with
  | none => none
  | some (a, b) => some (String.mk a, String.mk b)

/-- Embedding of isUnityClientMessage from main.go: the line starts with one
of the six known command prefixes. -/
def isUnityClientMessage (message : String) : Bool :=
  ["join:", "position:", "rotation:", "shoot:", "chat:", "ping:"].any
    (fun pre => hasPre message pre)

/-- Embedding of playerID := fmt.Sprintf("player_%d", time.Now().UnixNano()):
the id is a pure function of the nanosecond clock reading at admission. -/
def genPlayerID (nowNano : Nat) : String :=
  "player_" ++ Nat.repr nowNano

/-- Embedding of Lobby.processFirstMessage from main.go: split the first line
at the first colon; only the join command has an effect, overwriting the
player's placeholder username.  The function performs no writes and no
broadcast (it only logs), so its result is just the updated player. -/
def processFirstMessage (playerID firstMessage : String) (player : Player) : Player :=
  match splitFirstColon firstMessage with
  | none => player
  | some (command, data) =>
    match command with
    | "join" => { player with username := data }
    | _ => player

/-- Embedding of the loop body of Lobby.broadcast from main.go: write
message+newline to every player other than excludePlayerID whose IsReal is
set; a failed write is only logged and the loop continues. -/
def broadcastEvents : Lobby → String → String → (String → Bool) → List Event
  | [], _, _, _ => []
  | p :: ps, message, excludePlayerID, fails =>
    if p.id != excludePlayerID && p.isReal then
      (if fails p.conn then
        [Event.write p.conn (message ++ "\n"),
         Event.log ("Error sending to player " ++ p.id)]
       else
        [Event.write p.conn (message ++ "\n")])
      ++ broadcastEvents ps message excludePlayerID fails
    else
      broadcastEvents ps message excludePlayerID fails

/-- Embedding of Lobby.broadcast from main.go: it holds the registry lock for
reading only, so the registry it returns is the one it was given; its sole
effect is the event list. -/
def broadcast (l : Lobby) (message excludePlayerID : String) (fails : String → Bool) :
    Lobby × List Event :=
  (l, broadcastEvents l message excludePlayerID fails)

/-- Embedding of the loop body of Lobby.broadcast from part_000: no IsReal
field in that variant; a failed write is logged and the recipient's
connection is scheduled for closing (the delayed go-routine close). -/
def broadcastEventsV2 : Lobby → String → String → (String → Bool) → List Event
  | [], _, _, _ => []
  | p :: ps, message, excludePlayerID, fails =>
    if p.id != excludePlayerID then
      (if fails p.conn then
        [Event.write p.conn (message ++ "\n"),
         Event.log ("Error sending to player " ++ p.id),
         Event.close p.conn]
       else
        [Event.write p.conn (message ++ "\n")])
      ++ broadcastEventsV2 ps message excludePlayerID fails
    else
      broadcastEventsV2 ps message excludePlayerID fails

/-- Embedding of Lobby.broadcast from part_000 (read lock only, registry
returned unchanged). -/
def broadcastV2 (l : Lobby) (message excludePlayerID : String) (fails : String → Bool) :
    Lobby × List Event :=
  (l, broadcastEventsV2 l message excludePlayerID fails)

/-- Mutation of the registry entry with the given id through the fetched
pointer, as done by processMessage (player.Username = data and friends). -/
def updateField (l : Lobby) (playerID : String) (f : Player → Player) : Lobby :=
  l.map (fun p => if p.id == playerID then f p else p)

/-- Embedding of Lobby.processMessage from main.go: split at the first colon
(discarding lines without one), look the sender up in the registry (discard
if absent or not IsReal), then dispatch on the command. -/
def processMessage (l : Lobby) (playerID message : String) (fails : String → Bool) :
    Lobby × List Event :=
  match splitFirstColon message with
  | none => (l, [])
  | some (command, data) =>
    match l.find? (fun p => p.id == playerID) with
    | none => (l, [])
    | some player =>
      if player.isReal = false then (l, [])
      else
        match command with
        | "join" =>
          broadcast (updateField l playerID (fun p => { p with username := data }))
            ("lobby_info:Player " ++ data ++ " joined the game") playerID fails
        | "position" =>
          broadcast (updateField l playerID (fun p => { p with position := data }))
            ("position:" ++ playerID ++ "," ++ data) playerID fails
        | "rotation" =>
          broadcast (updateField l playerID (fun p => { p with rotation := data }))
            ("rotation:" ++ playerID ++ "," ++ data) playerID fails
        | "shoot" =>
          broadcast l ("shoot:" ++ playerID ++ "," ++ data) playerID fails
        | "chat" =>
          broadcast l ("chat:" ++ player.username ++ ":" ++ data) playerID fails
        | "ping" =>
          (l, [Event.write player.conn "pong:\n"])
        | _ => (l, [])

/-- The per-other-player lines of Lobby.sendLobbyInfo from main.go: for every
registered player other than the new one (and IsReal), a player_joined line,
and a position line when its Position string is non-empty. -/
def lobbyLines (selfConn selfId : String) : Lobby → List Event
  | [] => []
  | other :: rest =>
    if other.id != selfId && other.isReal then
      Event.write selfConn ("player_joined:" ++ other.id ++ "," ++ other.username ++ "\n") ::
      (if other.position != "" then
        Event.write selfConn ("position:" ++ other.id ++ "," ++ other.position ++ "\n") ::
          lobbyLines selfConn selfId rest
       else
        lobbyLines selfConn selfId rest)
    else
      lobbyLines selfConn selfId rest

/-- Embedding of Lobby.sendLobbyInfo from main.go: the current player count
(the new player is already registered at this point), then the per-player
snapshot lines. -/
def sendLobbyInfo (l : Lobby) (player : Player) : List Event :=
  Event.write player.conn
      ("lobby_info:Connected to Forced Entry! Players online: " ++ Nat.repr l.length ++ "\n")
    :: lobbyLines player.conn player.id l

/-- Embedding of lobby.Players[playerID] = player: a Go map assignment
replaces an entry with the same key and otherwise appends. -/
def registryInsert (l : Lobby) (p : Player) : Lobby :=
  if l.any (fun q => q.id == p.id) then
    l.map (fun q => if q.id == p.id then p else q)
  else
    l ++ [p]

/-- Embedding of handleConnection from main.go after the first line has been
read and trimmed (the read-timeout branch is the degenerate case with no
line and is outside this function).  conn names the accepted connection,
nowNano is time.Now().UnixNano() and nowSec is time.Now().Unix().  The
admitted branch stops where the frame loop begins; the emitted events are
the welcome write, the player_joined broadcast and the snapshot writes. -/
def handleConn (l : Lobby) (conn firstMessage : String) (nowNano nowSec : Nat)
    (fails : String → Bool) : Lobby × List Event :=
  if hasPre firstMessage "GET" || hasPre firstMessage "HEAD" ||
     hasPre firstMessage "OPTIONS" || containsSub firstMessage "HTTP/1.1" ||
     containsSub firstMessage "Host: forcedentry.onrender.com" then
    (l, [Event.write conn "HTTP/1.1 200 OK\r\nContent-Length: 2\r\n\r\nOK",
         Event.close conn])
  else if !isUnityClientMessage firstMessage then
    (l, [Event.close conn])
  else
    let playerID := genPlayerID nowNano
    let player0 : Player :=
      { id := playerID, conn := conn, position := "0,0,0", rotation := "0",
        lastSeen := nowNano, username := "Player" ++ Nat.repr (nowSec % 1000),
        isReal := true }
    let player := processFirstMessage playerID firstMessage player0
    let l1 := registryInsert l player
    let welcome :=
      Event.write conn ("server_info:Welcome to Forced Entry! Your ID: " ++ playerID ++ "\n")
    let joinedEvs :=
      broadcastEvents l1 ("player_joined:" ++ playerID ++ "," ++ player.username)
        playerID fails
    (l1, welcome :: (joinedEvs ++ sendLobbyInfo l1 player))

/-- The eviction condition of cleanupConnections from main.go:
now.Sub(player.LastSeen) > time.Minute and player.IsReal, with times in
seconds. -/
def stale (now : Nat) (p : Player) : Bool :=
  decide (60 < now - p.lastSeen) && p.isReal

/-- The connection closes performed by one reaper sweep, in iteration
order: the loop closes the connection of every stale player as it deletes
its entry. -/
def cleanupEvents (now : Nat) : Lobby → List Event
  | [] => []
  | p :: ps =>
    if stale now p then Event.close p.conn :: cleanupEvents now ps
    else cleanupEvents now ps

/-- Embedding of one sweep of cleanupConnections from main.go: under the
registry write lock, every stale player's connection is closed and its entry
deleted; nothing is written to any connection and nothing is broadcast. -/
def cleanupSweep (l : Lobby) (now : Nat) : Lobby × List Event :=
  (l.filter (fun p => !stale now p), cleanupEvents now l)

/-- The write events among a list of events (the data actually sent on
connections, as opposed to console logs and scheduled closes). -/
def writesOf (evs : List Event) : List Event :=
  evs.filter (fun e => match e with | .write _ _ => true | _ => false)

/-- The close events among a list of events. -/
def closesOf (evs : List Event) : List Event :=
  evs.filter (fun e => match e with | .close _ => true | _ => false)

/-- Failure environment in which every write succeeds. -/
def noFail : String → Bool := fun _ => false

/-- Two sample registered players used by concrete evaluations. -/
def samplePA : Player :=
  { id := "p1", conn := "c1", position := "0,0,0", rotation := "0",
    lastSeen := 0, username := "u1", isReal := true }

/-- Second sample player, on a different connection. -/
def samplePB : Player :=
  { id := "p2", conn := "c2", position := "0,0,0", rotation := "0",
    lastSeen := 0, username := "u2", isReal := true }

example : processMessage [samplePA, samplePB] "p1" "chat:hello:world" noFail =
    ([samplePA, samplePB], [Event.write "c2" "chat:u1:hello:world\n"]) := by decide

example : processMessage [samplePA, samplePB] "p1" "ping:" noFail =
    ([samplePA, samplePB], [Event.write "c1" "pong:\n"]) := by decide

example : (processMessage [samplePA, samplePB] "p1" "join:Alice" noFail).2 =
    [Event.write "c2" "lobby_info:Player Alice joined the game\n"] := by decide

example : handleConn [] "c1" "blah" 1 1 noFail = ([], [Event.close "c1"]) := by decide

/-! Lemmas about the frame splitter. -/

theorem string_data_append (s t : String) : (s ++ t).data = s.data ++ t.data := rfl

theorem splitFirstColonAux_append (cmd rest : List Char) (acc : List Char)
    (h : ∀ c ∈ cmd, c ≠ ':') :
    splitFirstColonAux acc (cmd ++ ':' :: rest) = some (acc.reverse ++ cmd, rest) := by
  induction cmd generalizing acc with
  | nil => simp [splitFirstColonAux]
  | cons c cs ih =>
    have hc : c ≠ ':' := h c (List.mem_cons_self c cs)
    have step : splitFirstColonAux acc ((c :: cs) ++ ':' :: rest) =
        splitFirstColonAux (c :: acc) (cs ++ ':' :: rest) := by
      simp [splitFirstColonAux, hc]
    rw [step, ih (c :: acc) (fun d hd => h d (List.mem_cons_of_mem c hd))]
    simp

/-- Splitting command ++ ":" ++ data at the first colon recovers the command
and passes the data through verbatim, colons in the data included. -/
theorem splitFirstColon_cmd (cmd data : String) (h : ∀ c ∈ cmd.data, c ≠ ':') :
    splitFirstColon (cmd ++ ":" ++ data) = some (cmd, data) := by
  unfold splitFirstColon
  have hd : (cmd ++ ":" ++ data).data = cmd.data ++ ':' :: data.data := by
    simp [string_data_append]
  rw [hd, splitFirstColonAux_append cmd.data data.data [] h]
  simp

/-! Lemmas about the broadcast engine. -/

theorem writesOf_append (a b : List Event) :
    writesOf (a ++ b) = writesOf a ++ writesOf b :=
  List.filter_append a b

theorem writesOf_nil : writesOf [] = [] := rfl

theorem writesOf_cons_write (r d : String) (rest : List Event) :
    writesOf (Event.write r d :: rest) = Event.write r d :: writesOf rest := rfl

theorem writesOf_cons_log (t : String) (rest : List Event) :
    writesOf (Event.log t :: rest) = writesOf rest := rfl

theorem writesOf_cons_close (r : String) (rest : List Event) :
    writesOf (Event.close r :: rest) = writesOf rest := rfl

theorem closesOf_append (a b : List Event) :
    closesOf (a ++ b) = closesOf a ++ closesOf b :=
  List.filter_append a b

theorem closesOf_nil : closesOf [] = [] := rfl

theorem closesOf_cons_write (r d : String) (rest : List Event) :
    closesOf (Event.write r d :: rest) = closesOf rest := rfl

theorem closesOf_cons_log (t : String) (rest : List Event) :
    closesOf (Event.log t :: rest) = closesOf rest := rfl

theorem closesOf_cons_close (r : String) (rest : List Event) :
    closesOf (Event.close r :: rest) = Event.close r :: closesOf rest := rfl

/-- The writes attempted by the main-variant broadcast loop are exactly one
line to each registered IsReal player other than the excluded id, whatever
the failure environment does. -/
theorem writesOf_broadcastEvents (l : Lobby) (message ex : String) (fails : String → Bool) :
    writesOf (broadcastEvents l message ex fails) =
      (l.filter (fun p => p.id != ex && p.isReal)).map
        (fun p => Event.write p.conn (message ++ "\n")) := by
  induction l with
  | nil => rfl
  | cons p ps ih =>
    rw [broadcastEvents, List.filter_cons]
    by_cases h : (p.id != ex && p.isReal) = true
    · rw [if_pos h, if_pos h, writesOf_append, List.map_cons]
      by_cases hf : fails p.conn = true
      · rw [if_pos hf, ih]; rfl
      · rw [if_neg hf, ih]; rfl
    · rw [if_neg h, if_neg h, ih]

theorem closesOf_broadcastEvents (l : Lobby) (message ex : String) (fails : String → Bool) :
    closesOf (broadcastEvents l message ex fails) = [] := by
  induction l with
  | nil => rfl
  | cons p ps ih =>
    rw [broadcastEvents]
    by_cases h : (p.id != ex && p.isReal) = true
    · rw [if_pos h, closesOf_append, ih]
      by_cases hf : fails p.conn = true
      · rw [if_pos hf]; rfl
      · rw [if_neg hf]; rfl
    · rw [if_neg h, ih]

/-- The part_000 broadcast loop (no IsReal field) attempts exactly one write
per non-excluded registered player, whatever the failure environment. -/
theorem writesOf_broadcastEventsV2 (l : Lobby) (message ex : String) (fails : String → Bool) :
    writesOf (broadcastEventsV2 l message ex fails) =
      (l.filter (fun p => p.id != ex)).map
        (fun p => Event.write p.conn (message ++ "\n")) := by
  induction l with
  | nil => rfl
  | cons p ps ih =>
    rw [broadcastEventsV2, List.filter_cons]
    by_cases h : (p.id != ex) = true
    · rw [if_pos h, if_pos h, writesOf_append, List.map_cons]
      by_cases hf : fails p.conn = true
      · rw [if_pos hf, ih]; rfl
      · rw [if_neg hf, ih]; rfl
    · rw [if_neg h, if_neg h, ih]

/-- The part_000 broadcast loop schedules a close for exactly the non-excluded
recipients whose write failed. -/
theorem closesOf_broadcastEventsV2 (l : Lobby) (message ex : String) (fails : String → Bool) :
    closesOf (broadcastEventsV2 l message ex fails) =
      (l.filter (fun p => p.id != ex && fails p.conn)).map
        (fun p => Event.close p.conn) := by
  induction l with
  | nil => rfl
  | cons p ps ih =>
    rw [broadcastEventsV2, List.filter_cons]
    by_cases h : (p.id != ex) = true
    · rw [if_pos h, closesOf_append, ih]
      by_cases hf : fails p.conn = true
      · rw [if_pos hf]
        have : (p.id != ex && fails p.conn) = true := by rw [h, hf]; rfl
        rw [this, if_pos rfl, List.map_cons]
        rfl
      · rw [if_neg hf]
        have : (p.id != ex && fails p.conn) = false := by
          rw [h, Bool.true_and]; exact Bool.eq_false_iff.mpr hf
        rw [this]
        simp only [Bool.false_eq_true, if_false]
        rfl
    · rw [if_neg h, ih]
      have : (p.id != ex && fails p.conn) = false := by
        rw [Bool.eq_false_iff.mpr h, Bool.false_and]
      rw [this]
      simp only [Bool.false_eq_true, if_false]

/-! Lemmas about in-place registry field updates. -/

theorem updateField_cons (p : Player) (ps : Lobby) (pid : String) (f : Player → Player) :
    updateField (p :: ps) pid f =
      (if p.id == pid then f p else p) :: updateField ps pid f := rfl

/-- Updating the sender's entry does not change the broadcast recipient set:
the sender is excluded anyway and everyone else's entry is untouched. -/
theorem updateField_filter_ne (l : Lobby) (pid : String) (f : Player → Player)
    (hid : ∀ q, (f q).id = q.id) :
    (updateField l pid f).filter (fun q => q.id != pid && q.isReal) =
      l.filter (fun q => q.id != pid && q.isReal) := by
  induction l with
  | nil => rfl
  | cons p ps ih =>
    rw [updateField_cons, List.filter_cons, List.filter_cons]
    by_cases hp : (p.id == pid) = true
    · rw [if_pos hp]
      have h1 : ((f p).id != pid && (f p).isReal) = false := by
        rw [bne, hid p, hp]; rfl
      have h2 : (p.id != pid && p.isReal) = false := by
        rw [bne, hp]; rfl
      rw [h1, h2]
      simp only [Bool.false_eq_true, if_false]
      exact ih
    · rw [if_neg hp, ih]

theorem find?_updateField (l : Lobby) (pid : String) (f : Player → Player) (p : Player)
    (hid : ∀ q, (f q).id = q.id)
    (hfind : l.find? (fun q => q.id == pid) = some p) :
    (updateField l pid f).find? (fun q => q.id == pid) = some (f p) := by
  induction l with
  | nil => simp at hfind
  | cons a as ih =>
    rw [updateField_cons]
    by_cases ha : (a.id == pid) = true
    · rw [List.find?_cons_of_pos as ha] at hfind
      have hap : a = p := Option.some.inj hfind
      rw [if_pos ha]
      have hfp : ((f a).id == pid) = true := by rw [hid a]; exact ha
      rw [List.find?_cons_of_pos (p := fun (q : Player) => q.id == pid) _ hfp, hap]
    · rw [List.find?_cons_of_neg (p := fun (q : Player) => q.id == pid) as ha] at hfind
      rw [if_neg ha, List.find?_cons_of_neg (p := fun (q : Player) => q.id == pid) _ ha]
      exact ih hfind

/-! Lemmas about the dispatcher. -/

theorem processMessage_join (l : Lobby) (pid data : String) (fails : String → Bool)
    (p : Player) (hfind : l.find? (fun q => q.id == pid) = some p)
    (hreal : p.isReal = true) :
    processMessage l pid ("join:" ++ data) fails =
      (updateField l pid (fun q => { q with username := data }),
       broadcastEvents (updateField l pid (fun q => { q with username := data }))
         ("lobby_info:Player " ++ data ++ " joined the game") pid fails) := by
  have hs : splitFirstColon ("join:" ++ data) = some ("join", data) :=
    splitFirstColon_cmd "join" data (by decide)
  simp only [processMessage, hs, hfind, hreal, broadcast]
  exact if_neg (by decide)

theorem processMessage_chat (l : Lobby) (pid data : String) (fails : String → Bool)
    (p : Player) (hfind : l.find? (fun q => q.id == pid) = some p)
    (hreal : p.isReal = true) :
    processMessage l pid ("chat:" ++ data) fails =
      (l, broadcastEvents l ("chat:" ++ p.username ++ ":" ++ data) pid fails) := by
  have hs : splitFirstColon ("chat:" ++ data) = some ("chat", data) :=
    splitFirstColon_cmd "chat" data (by decide)
  simp only [processMessage, hs, hfind, hreal, broadcast]
  exact if_neg (by decide)

theorem processMessage_ping (l : Lobby) (pid : String) (fails : String → Bool)
    (p : Player) (hfind : l.find? (fun q => q.id == pid) = some p)
    (hreal : p.isReal = true) :
    processMessage l pid "ping:" fails = (l, [Event.write p.conn "pong:\n"]) := by
  have hs : splitFirstColon "ping:" = some ("ping", "") := by decide
  simp only [processMessage, hs, hfind, hreal]
  exact if_neg (by decide)

/-! Lemmas about first-line dispatch. -/

theorem processFirstMessage_join (pid data : String) (p : Player) :
    processFirstMessage pid ("join:" ++ data) p = { p with username := data } := by
  have hs : splitFirstColon ("join:" ++ data) = some ("join", data) :=
    splitFirstColon_cmd "join" data (by decide)
  simp only [processFirstMessage, hs]

theorem processFirstMessage_other (pid cmd data : String) (p : Player)
    (hcmd : cmd ≠ "join") (hcolon : ∀ c ∈ cmd.data, c ≠ ':') :
    processFirstMessage pid (cmd ++ ":" ++ data) p = p := by
  have hs := splitFirstColon_cmd cmd data hcolon
  simp only [processFirstMessage, hs]

/-! The decimal numeral printer used by fmt.Sprintf("%d") on a Nat is
injective: digitsVal is a left inverse of Nat.toDigits 10. -/

/-- Numeric value of a decimal digit character. -/
def digitVal (c : Char) : Nat := c.toNat - 48

/-- Read a decimal digit string back into a number. -/
def digitsVal (ds : List Char) : Nat := ds.foldl (fun a c => 10 * a + digitVal c) 0

theorem digitVal_digitChar : ∀ d < 10, digitVal (Nat.digitChar d) = d := by decide

theorem toDigitsCore_shift (fuel : Nat) : ∀ (n : Nat) (ds : List Char),
    Nat.toDigitsCore 10 fuel n ds = Nat.toDigitsCore 10 fuel n [] ++ ds := by
  induction fuel with
  | zero => intro n ds; rfl
  | succ f ih =>
    intro n ds
    simp only [Nat.toDigitsCore]
    by_cases h : n / 10 = 0
    · simp [h]
    · rw [if_neg h, if_neg h, ih (n / 10) (Nat.digitChar (n % 10) :: ds),
          ih (n / 10) [Nat.digitChar (n % 10)]]
      simp

theorem toDigitsCore_fuel : ∀ (f1 f2 n : Nat), n < f1 → n < f2 → ∀ ds,
    Nat.toDigitsCore 10 f1 n ds = Nat.toDigitsCore 10 f2 n ds := by
  intro f1
  induction f1 with
  | zero => intro f2 n h1 h2 ds; exact absurd h1 (Nat.not_lt_zero n)
  | succ f ih =>
    intro f2 n h1 h2 ds
    cases f2 with
    | zero => exact absurd h2 (Nat.not_lt_zero n)
    | succ g =>
      simp only [Nat.toDigitsCore]
      by_cases h : n / 10 = 0
      · simp [h]
      · rw [if_neg h, if_neg h]
        have hn : 0 < n := Nat.pos_of_ne_zero (fun e => h (by simp [e]))
        have hd : n / 10 < n := Nat.div_lt_self hn (by norm_num)
        exact ih g (n / 10) (by omega) (by omega) _

theorem digitsVal_toDigits (n : Nat) : digitsVal (Nat.toDigits 10 n) = n := by
  induction n using Nat.strong_induction_on with
  | _ n ih =>
    by_cases h : n / 10 = 0
    · have hn : n < 10 := by
        by_contra hge
        rw [Nat.div_eq_zero_iff (by norm_num)] at h
        exact hge h
      have e : Nat.toDigits 10 n = [Nat.digitChar (n % 10)] := by
        simp [Nat.toDigits, Nat.toDigitsCore, h]
      rw [e]
      have hm : n % 10 = n := Nat.mod_eq_of_lt hn
      simp [digitsVal, hm, digitVal_digitChar n hn]
    · have hn : 0 < n := Nat.pos_of_ne_zero (fun e => h (by simp [e]))
      have hd : n / 10 < n := Nat.div_lt_self hn (by norm_num)
      have e1 : Nat.toDigits 10 n =
          Nat.toDigitsCore 10 n (n / 10) [Nat.digitChar (n % 10)] := by
        simp [Nat.toDigits, Nat.toDigitsCore, h]
      have e2 : Nat.toDigitsCore 10 n (n / 10) [Nat.digitChar (n % 10)] =
          Nat.toDigitsCore 10 (n / 10 + 1) (n / 10) [Nat.digitChar (n % 10)] :=
        toDigitsCore_fuel n (n / 10 + 1) (n / 10) (by omega) (by omega) _
      rw [e1, e2, toDigitsCore_shift]
      have e4 : digitsVal (Nat.toDigits 10 (n / 10) ++ [Nat.digitChar (n % 10)]) =
          10 * digitsVal (Nat.toDigits 10 (n / 10)) + digitVal (Nat.digitChar (n % 10)) := by
        simp [digitsVal, List.foldl_append]
      rw [show Nat.toDigitsCore 10 (n / 10 + 1) (n / 10) [] = Nat.toDigits 10 (n / 10) from rfl,
          e4, ih (n / 10) hd, digitVal_digitChar (n % 10) (Nat.mod_lt n (by norm_num))]
      omega

theorem Nat_repr_inj {m n : Nat} (h : Nat.repr m = Nat.repr n) : m = n := by
  have hd : Nat.toDigits 10 m = Nat.toDigits 10 n := by
    have h2 := congrArg String.data h
    simpa [Nat.repr, List.asString] using h2
  have h3 := congrArg digitsVal hd
  rwa [digitsVal_toDigits, digitsVal_toDigits] at h3

theorem genPlayerID_inj (t1 t2 : Nat) (h : genPlayerID t1 = genPlayerID t2) : t1 = t2 := by
  apply Nat_repr_inj
  have hd := congrArg String.data h
  simp only [genPlayerID, string_data_append] at hd
  exact congrArg String.mk (List.append_cancel_left hd)

/-! Lemmas about the reaper sweep. -/

theorem cleanupEvents_cons (now : Nat) (q : Player) (qs : Lobby) :
    cleanupEvents now (q :: qs) =
      (if stale now q then Event.close q.conn :: cleanupEvents now qs
       else cleanupEvents now qs) := rfl

theorem cleanupEvents_count_zero (qs : Lobby) (now : Nat) (c : String)
    (hc : c ∉ qs.map Player.conn) :
    (cleanupEvents now qs).count (Event.close c) = 0 := by
  induction qs with
  | nil => rfl
  | cons q qs ih =>
    simp only [List.map_cons, List.mem_cons, not_or] at hc
    obtain ⟨h1, h2⟩ := hc
    rw [cleanupEvents_cons]
    by_cases hq : stale now q = true
    · rw [if_pos hq, List.count_cons, ih h2]
      simp [Ne.symm h1]
    · rw [if_neg hq]
      exact ih h2

theorem cleanupEvents_count_one (l : Lobby) (now : Nat) (p : Player)
    (hmem : p ∈ l) (hst : stale now p = true)
    (hnd : (l.map Player.conn).Nodup) :
    (cleanupEvents now l).count (Event.close p.conn) = 1 := by
  induction l with
  | nil => cases hmem
  | cons q qs ih =>
    rw [List.map_cons, List.nodup_cons] at hnd
    obtain ⟨hq1, hq2⟩ := hnd
    rcases List.mem_cons.mp hmem with rfl | hmem2
    · rw [cleanupEvents_cons, if_pos hst, List.count_cons,
          cleanupEvents_count_zero qs now p.conn hq1]
      simp
    · have hpq : q.conn ≠ p.conn := by
        intro e
        exact hq1 (e ▸ List.mem_map_of_mem Player.conn hmem2)
      by_cases hq : stale now q = true
      · rw [cleanupEvents_cons, if_pos hq, List.count_cons, ih hmem2 hq2]
        simp [hpq]
      · rw [cleanupEvents_cons, if_neg hq]
        exact ih hmem2 hq2

theorem cleanupEvents_sound (l : Lobby) (now : Nat) :
    ∀ e ∈ cleanupEvents now l,
      ∃ p, p ∈ l ∧ stale now p = true ∧ e = Event.close p.conn := by
  induction l with
  | nil => intro e he; cases he
  | cons q qs ih =>
    intro e he
    rw [cleanupEvents_cons] at he
    by_cases hq : stale now q = true
    · rw [if_pos hq] at he
      rcases List.mem_cons.mp he with rfl | he2
      · exact ⟨q, List.mem_cons_self _ _, hq, rfl⟩
      · obtain ⟨p, h1, h2, h3⟩ := ih e he2
        exact ⟨p, List.mem_cons_of_mem _ h1, h2, h3⟩
    · rw [if_neg hq] at he
      obtain ⟨p, h1, h2, h3⟩ := ih e he
      exact ⟨p, List.mem_cons_of_mem _ h1, h2, h3⟩

theorem cleanupEvents_no_writes (l : Lobby) (now : Nat) :
    writesOf (cleanupEvents now l) = [] := by
  induction l with
  | nil => rfl
  | cons q qs ih =>
    rw [cleanupEvents_cons]
    by_cases hq : stale now q = true
    · rw [if_pos hq, writesOf_cons_close]
      exact ih
    · rw [if_neg hq]
      exact ih

/-! Lemmas about the admission snapshot. -/

theorem lobbyLines_cons (selfConn selfId : String) (q : Player) (qs : Lobby) :
    lobbyLines selfConn selfId (q :: qs) =
      (if q.id != selfId && q.isReal then
        Event.write selfConn ("player_joined:" ++ q.id ++ "," ++ q.username ++ "\n") ::
        (if q.position != "" then
          Event.write selfConn ("position:" ++ q.id ++ "," ++ q.position ++ "\n") ::
            lobbyLines selfConn selfId qs
         else lobbyLines selfConn selfId qs)
      else lobbyLines selfConn selfId qs) := rfl

theorem lobbyLines_mem (selfConn selfId : String) (l : Lobby) (other : Player)
    (hmem : other ∈ l) (hne : other.id ≠ selfId) (hreal : other.isReal = true) :
    Event.write selfConn ("player_joined:" ++ other.id ++ "," ++ other.username ++ "\n")
      ∈ lobbyLines selfConn selfId l ∧
    (other.position ≠ "" →
      Event.write selfConn ("position:" ++ other.id ++ "," ++ other.position ++ "\n")
        ∈ lobbyLines selfConn selfId l) := by
  induction l with
  | nil => cases hmem
  | cons q qs ih =>
    rw [lobbyLines_cons]
    rcases List.mem_cons.mp hmem with rfl | hmem2
    · have hcond : (other.id != selfId && other.isReal) = true := by
        rw [hreal, Bool.and_true, bne_iff_ne]
        exact hne
      rw [if_pos hcond]
      constructor
      · exact List.mem_cons_self _ _
      · intro hpos
        have hp : (other.position != "") = true := bne_iff_ne.mpr hpos
        rw [if_pos hp]
        exact List.mem_cons_of_mem _ (List.mem_cons_self _ _)
    · have h := ih hmem2
      by_cases hcond : (q.id != selfId && q.isReal) = true
      · rw [if_pos hcond]
        by_cases hp : (q.position != "") = true
        · rw [if_pos hp]
          exact ⟨List.mem_cons_of_mem _ (List.mem_cons_of_mem _ h.1),
                 fun hx => List.mem_cons_of_mem _ (List.mem_cons_of_mem _ (h.2 hx))⟩
        · rw [if_neg hp]
          exact ⟨List.mem_cons_of_mem _ h.1, fun hx => List.mem_cons_of_mem _ (h.2 hx)⟩
      · rw [if_neg hcond]
        exact h

theorem lobbyLines_sound (selfConn selfId : String) (l : Lobby) :
    ∀ e ∈ lobbyLines selfConn selfId l,
      ∃ q, q ∈ l ∧ q.id ≠ selfId ∧ q.isReal = true ∧
        (e = Event.write selfConn ("player_joined:" ++ q.id ++ "," ++ q.username ++ "\n") ∨
         (q.position ≠ "" ∧
          e = Event.write selfConn ("position:" ++ q.id ++ "," ++ q.position ++ "\n"))) := by
  induction l with
  | nil => intro e he; cases he
  | cons q qs ih =>
    intro e he
    rw [lobbyLines_cons] at he
    by_cases hcond : (q.id != selfId && q.isReal) = true
    · have hqne : q.id ≠ selfId := bne_iff_ne.mp ((Bool.and_eq_true _ _).mp hcond).1
      have hqreal : q.isReal = true := ((Bool.and_eq_true _ _).mp hcond).2
      rw [if_pos hcond] at he
      by_cases hp : (q.position != "") = true
      · rw [if_pos hp] at he
        rcases List.mem_cons.mp he with rfl | he2
        · exact ⟨q, List.mem_cons_self _ _, hqne, hqreal, Or.inl rfl⟩
        rcases List.mem_cons.mp he2 with rfl | he3
        · exact ⟨q, List.mem_cons_self _ _, hqne, hqreal, Or.inr ⟨bne_iff_ne.mp hp, rfl⟩⟩
        · obtain ⟨r, hr, h2, h3, h4⟩ := ih e he3
          exact ⟨r, List.mem_cons_of_mem _ hr, h2, h3, h4⟩
      · rw [if_neg hp] at he
        rcases List.mem_cons.mp he with rfl | he2
        · exact ⟨q, List.mem_cons_self _ _, hqne, hqreal, Or.inl rfl⟩
        · obtain ⟨r, hr, h2, h3, h4⟩ := ih e he2
          exact ⟨r, List.mem_cons_of_mem _ hr, h2, h3, h4⟩
    · rw [if_neg hcond] at he
      obtain ⟨r, hr, h2, h3, h4⟩ := ih e he
      exact ⟨r, List.mem_cons_of_mem _ hr, h2, h3, h4⟩

/-! The claims. -/

/-- C1: broadcast(M, E) attempts to write M followed by a newline to exactly
the registered participants whose id is not E (admission is the only
insertion point and always sets IsReal, hence the hypothesis) and to nobody
else; the attempted writes are the same whatever subset of them the
environment makes fail, so one recipient's failure does not prevent the
attempt to any other, and the call returns no error to the caller (its
result is the event list alone).  The part_000 variant delivers to the same
recipient set with no IsReal condition at all. -/
theorem broadcast_delivers_exactly (l : Lobby) (message excludeID : String)
    (fails : String → Bool) (hreal : ∀ p ∈ l, p.isReal = true) :
    writesOf (broadcast l message excludeID fails).2 =
      (l.filter (fun p => p.id != excludeID)).map
        (fun p => Event.write p.conn (message ++ "\n")) ∧
    writesOf (broadcast l message excludeID fails).2 =
      writesOf (broadcast l message excludeID noFail).2 ∧
    writesOf (broadcastV2 l message excludeID fails).2 =
      (l.filter (fun p => p.id != excludeID)).map
        (fun p => Event.write p.conn (message ++ "\n")) := by
  have key : ∀ g : String → Bool,
      writesOf (broadcast l message excludeID g).2 =
        (l.filter (fun p => p.id != excludeID)).map
          (fun p => Event.write p.conn (message ++ "\n")) := by
    intro g
    show writesOf (broadcastEvents l message excludeID g) = _
    rw [writesOf_broadcastEvents]
    congr 1
    apply List.filter_congr
    intro p hp
    rw [hreal p hp, Bool.and_true]
  exact ⟨key fails, (key fails).trans (key noFail).symm,
    writesOf_broadcastEventsV2 l message excludeID fails⟩

/-- Witness for C1 at a concrete registry where the write to c2 fails. -/
theorem broadcast_delivers_exactly_witness :
    writesOf (broadcast [samplePA, samplePB] "hi" "p1" (fun c => c == "c2")).2 =
      [Event.write "c2" ("hi" ++ "\n")] := by
  have h := broadcast_delivers_exactly [samplePA, samplePB] "hi" "p1"
      (fun c => c == "c2") (by decide)
  rw [h.1]
  decide

/-- C2 is false as stated: a first line position:9,9,9 is NOT dispatched the
way the same line is dispatched as a later frame.  The first-message path
leaves the participant's position at its placeholder and emits nothing,
while the frame path applied to the same line updates the position and
broadcasts it to the other participant. -/
theorem first_line_dispatch_counterexample :
    processFirstMessage "p1" "position:9,9,9" samplePA = samplePA ∧
    (processMessage [samplePA, samplePB] "p1" "position:9,9,9" noFail).1.map
        Player.position = ["9,9,9", "0,0,0"] ∧
    (processMessage [samplePA, samplePB] "p1" "position:9,9,9" noFail).2 =
      [Event.write "c2" "position:p1,9,9,9\n"] := by decide

/-- C2 amended: first-line dispatch agrees with frame dispatch only on the
join username update; it performs that update with no broadcast, and for
every other recognized command (position, rotation, shoot, chat, ping) it
changes nothing and emits nothing. -/
theorem first_line_dispatch_join_only (pid data : String) (p : Player) :
    processFirstMessage pid ("join:" ++ data) p = { p with username := data } ∧
    processFirstMessage pid ("position:" ++ data) p = p ∧
    processFirstMessage pid ("rotation:" ++ data) p = p ∧
    processFirstMessage pid ("shoot:" ++ data) p = p ∧
    processFirstMessage pid ("chat:" ++ data) p = p ∧
    processFirstMessage pid ("ping:" ++ data) p = p :=
  ⟨processFirstMessage_join pid data p,
   processFirstMessage_other pid "position" data p (by decide) (by decide),
   processFirstMessage_other pid "rotation" data p (by decide) (by decide),
   processFirstMessage_other pid "shoot" data p (by decide) (by decide),
   processFirstMessage_other pid "chat" data p (by decide) (by decide),
   processFirstMessage_other pid "ping" data p (by decide) (by decide)⟩

/-- C3 is false as stated for first lines containing the literal
Render host header: such a line is neither an HTTP-style probe in the
claim's sense (GET/HEAD/OPTIONS prefix or HTTP/1.1 substring) nor a known
command, yet the code answers it with an HTTP 200 response instead of
closing silently. -/
theorem host_header_counterexample :
    hasPre "Host: forcedentry.onrender.com" "GET" = false ∧
    hasPre "Host: forcedentry.onrender.com" "HEAD" = false ∧
    hasPre "Host: forcedentry.onrender.com" "OPTIONS" = false ∧
    containsSub "Host: forcedentry.onrender.com" "HTTP/1.1" = false ∧
    isUnityClientMessage "Host: forcedentry.onrender.com" = false ∧
    handleConn [] "c1" "Host: forcedentry.onrender.com" 1 1 noFail =
      ([], [Event.write "c1" "HTTP/1.1 200 OK\r\nContent-Length: 2\r\n\r\nOK",
            Event.close "c1"]) := by decide

/-- C3 amended: a first line that is not an HTTP probe, does not contain the
Render host header, and starts with no known command prefix is dropped
silently: the connection is closed without any write and the registry is
untouched, so no participant is ever inserted for it. -/
theorem unrecognized_first_line_rejected (l : Lobby) (conn firstMessage : String)
    (nowNano nowSec : Nat) (fails : String → Bool)
    (h1 : hasPre firstMessage "GET" = false)
    (h2 : hasPre firstMessage "HEAD" = false)
    (h3 : hasPre firstMessage "OPTIONS" = false)
    (h4 : containsSub firstMessage "HTTP/1.1" = false)
    (h5 : containsSub firstMessage "Host: forcedentry.onrender.com" = false)
    (h6 : isUnityClientMessage firstMessage = false) :
    handleConn l conn firstMessage nowNano nowSec fails = (l, [Event.close conn]) := by
  simp [handleConn, h1, h2, h3, h4, h5, h6]

/-- Witness for C3 amended at a concrete junk first line. -/
theorem unrecognized_first_line_rejected_witness :
    handleConn [] "c1" "hello world" 1 1 noFail = ([], [Event.close "c1"]) :=
  unrecognized_first_line_rejected [] "c1" "hello world" 1 1 noFail (by decide)
    (by decide) (by decide) (by decide) (by decide) (by decide)

/-- C4 is false as stated: a participant that never reported a position still
gets a position line in the snapshot, because Position is initialized to the
non-empty placeholder 0,0,0 at admission and sendLobbyInfo only tests for a
non-empty string.  In this trace the first participant only ever sent
join:Alice (its position is still the placeholder), yet the second
participant's snapshot contains a position line for it. -/
theorem snapshot_counterexample :
    (handleConn [] "c1" "join:Alice" 1 1 noFail).1.map Player.position = ["0,0,0"] ∧
    Event.write "c2" "position:player_1,0,0,0\n" ∈
      (handleConn (handleConn [] "c1" "join:Alice" 1 1 noFail).1 "c2" "join:Bob" 2 2
        noFail).2 := by decide

/-- C4 amended: the snapshot sent to an admitted participant starts with the
current participant count and, for every other registered participant,
contains a player_joined line and a position line exactly when that
participant's stored position string is non-empty; since position is
initialized to 0,0,0, participants that never reported a position are
included.  Every snapshot line is of one of these forms. -/
theorem snapshot_characterization (l : Lobby) (player other : Player)
    (hmem : other ∈ l) (hne : other.id ≠ player.id) (hreal : other.isReal = true) :
    (sendLobbyInfo l player).head? = some (Event.write player.conn
      ("lobby_info:Connected to Forced Entry! Players online: " ++
        Nat.repr l.length ++ "\n")) ∧
    Event.write player.conn ("player_joined:" ++ other.id ++ "," ++ other.username ++ "\n")
      ∈ sendLobbyInfo l player ∧
    (other.position ≠ "" →
      Event.write player.conn ("position:" ++ other.id ++ "," ++ other.position ++ "\n")
        ∈ sendLobbyInfo l player) ∧
    (∀ e ∈ sendLobbyInfo l player,
      e = Event.write player.conn
          ("lobby_info:Connected to Forced Entry! Players online: " ++
            Nat.repr l.length ++ "\n") ∨
      ∃ q, q ∈ l ∧ q.id ≠ player.id ∧ q.isReal = true ∧
        (e = Event.write player.conn ("player_joined:" ++ q.id ++ "," ++ q.username ++ "\n") ∨
         (q.position ≠ "" ∧
          e = Event.write player.conn
            ("position:" ++ q.id ++ "," ++ q.position ++ "\n")))) := by
  have hm := lobbyLines_mem player.conn player.id l other hmem hne hreal
  refine ⟨rfl, List.mem_cons_of_mem _ hm.1,
    fun hp => List.mem_cons_of_mem _ (hm.2 hp), ?_⟩
  intro e he
  rcases List.mem_cons.mp he with rfl | he2
  · exact Or.inl rfl
  · exact Or.inr (lobbyLines_sound player.conn player.id l e he2)

/-- Witness for C4 amended at a concrete two-player registry. -/
theorem snapshot_characterization_witness :
    Event.write "c2" ("player_joined:" ++ "p1" ++ "," ++ "u1" ++ "\n") ∈
      sendLobbyInfo [samplePA, samplePB] samplePB ∧
    Event.write "c2" ("position:" ++ "p1" ++ "," ++ "0,0,0" ++ "\n") ∈
      sendLobbyInfo [samplePA, samplePB] samplePB := by
  have h := snapshot_characterization [samplePA, samplePB] samplePB samplePA
      (by decide) (by decide) (by decide)
  exact ⟨h.2.1, h.2.2.1 (by decide)⟩

/-- C5 is false as stated: the join broadcast is
lobby_info:Player <username> joined the game, with a literal Player prefix
before the username, not lobby_info:<username> joined the game. -/
theorem join_broadcast_counterexample :
    (processMessage [samplePA, samplePB] "p1" "join:Alice" noFail).2 =
      [Event.write "c2" "lobby_info:Player Alice joined the game\n"] ∧
    Event.write "c2" "lobby_info:Alice joined the game\n" ∉
      (processMessage [samplePA, samplePB] "p1" "join:Alice" noFail).2 := by decide

/-- C5 amended: a join frame from a registered participant sets that
participant's username to the payload and broadcasts exactly
lobby_info:Player <payload> joined the game to every other registered
participant. -/
theorem join_frame_updates_username_and_notifies (l : Lobby) (pid data : String)
    (fails : String → Bool) (p : Player)
    (hfind : l.find? (fun q => q.id == pid) = some p) (hreal : p.isReal = true) :
    ((processMessage l pid ("join:" ++ data) fails).1.find?
        (fun q => q.id == pid)).map Player.username = some data ∧
    writesOf (processMessage l pid ("join:" ++ data) fails).2 =
      (l.filter (fun q => q.id != pid && q.isReal)).map
        (fun q => Event.write q.conn
          ("lobby_info:Player " ++ data ++ " joined the game" ++ "\n")) := by
  rw [processMessage_join l pid data fails p hfind hreal]
  constructor
  · rw [find?_updateField l pid (fun q => { q with username := data }) p
        (fun q => rfl) hfind]
    rfl
  · rw [writesOf_broadcastEvents,
        updateField_filter_ne l pid (fun q => { q with username := data }) (fun q => rfl)]

/-- Witness for C5 amended at a concrete two-player registry. -/
theorem join_frame_witness :
    ((processMessage [samplePA, samplePB] "p1" ("join:" ++ "Alice") noFail).1.find?
        (fun q => q.id == "p1")).map Player.username = some "Alice" := by
  have h := join_frame_updates_username_and_notifies [samplePA, samplePB] "p1" "Alice"
      noFail samplePA (by decide) (by decide)
  exact h.1

/-- C6: one reaper sweep removes exactly the registered participants whose
last_active timestamp is more than the 60-second threshold old, closing each
such connection exactly once; participants within the threshold stay
registered; and the sweep writes nothing to any connection, in particular it
broadcasts no departure notice. -/
theorem reaper_sweep_correct (l : Lobby) (now : Nat)
    (hreal : ∀ p ∈ l, p.isReal = true)
    (hconns : (l.map Player.conn).Nodup) :
    (∀ p ∈ l, 60 < now - p.lastSeen →
        p ∉ (cleanupSweep l now).1 ∧
        (cleanupSweep l now).2.count (Event.close p.conn) = 1) ∧
    (∀ p ∈ l, now - p.lastSeen ≤ 60 → p ∈ (cleanupSweep l now).1) ∧
    (∀ e ∈ (cleanupSweep l now).2,
        ∃ p, p ∈ l ∧ 60 < now - p.lastSeen ∧ e = Event.close p.conn) ∧
    writesOf (cleanupSweep l now).2 = [] := by
  refine ⟨?_, ?_, ?_, cleanupEvents_no_writes l now⟩
  · intro p hp hold
    have hst : stale now p = true := by
      rw [stale, hreal p hp, Bool.and_true]
      exact decide_eq_true hold
    constructor
    · simp [cleanupSweep, List.mem_filter, hst]
    · exact cleanupEvents_count_one l now p hp hst hconns
  · intro p hp hfresh
    have hst : stale now p = false := by
      rw [stale, decide_eq_false (by omega), Bool.false_and]
    simp [cleanupSweep, List.mem_filter, hp, hst]
  · intro e he
    obtain ⟨p, h1, h2, h3⟩ := cleanupEvents_sound l now e he
    refine ⟨p, h1, ?_, h3⟩
    rw [stale, hreal p h1, Bool.and_true] at h2
    exact of_decide_eq_true h2

/-- Witness for C6: at time 100 a participant last seen at 0 is evicted with
one close, one last seen at 90 survives. -/
theorem reaper_sweep_correct_witness :
    samplePA ∉ (cleanupSweep [samplePA, { samplePB with lastSeen := 90 }] 100).1 ∧
    (cleanupSweep [samplePA, { samplePB with lastSeen := 90 }] 100).2.count
        (Event.close "c1") = 1 ∧
    { samplePB with lastSeen := 90 } ∈
      (cleanupSweep [samplePA, { samplePB with lastSeen := 90 }] 100).1 := by
  have h := reaper_sweep_correct [samplePA, { samplePB with lastSeen := 90 }] 100
      (by decide) (by decide)
  exact ⟨(h.1 samplePA (by decide) (by decide)).1,
         (h.1 samplePA (by decide) (by decide)).2,
         h.2.1 { samplePB with lastSeen := 90 } (by decide) (by decide)⟩

/-- C7: a chat frame whose payload contains colons is split only at the
first colon, so the payload reaches the dispatcher verbatim, and the
broadcast to every other registered participant is exactly
chat:<username>:<payload>. -/
theorem chat_payload_verbatim (l : Lobby) (pid data : String) (fails : String → Bool)
    (p : Player) (hfind : l.find? (fun q => q.id == pid) = some p)
    (hreal : p.isReal = true) :
    splitFirstColon ("chat:" ++ data) = some ("chat", data) ∧
    processMessage l pid ("chat:" ++ data) fails =
      (l, broadcastEvents l ("chat:" ++ p.username ++ ":" ++ data) pid fails) ∧
    writesOf (processMessage l pid ("chat:" ++ data) fails).2 =
      (l.filter (fun q => q.id != pid && q.isReal)).map
        (fun q => Event.write q.conn ("chat:" ++ p.username ++ ":" ++ data ++ "\n")) := by
  refine ⟨splitFirstColon_cmd "chat" data (by decide),
    processMessage_chat l pid data fails p hfind hreal, ?_⟩
  rw [processMessage_chat l pid data fails p hfind hreal]
  exact writesOf_broadcastEvents l _ pid fails

/-- Witness for C7 at the payload hello:world of the spec's example. -/
theorem chat_payload_verbatim_witness :
    writesOf (processMessage [samplePA, samplePB] "p1" ("chat:" ++ "hello:world") noFail).2 =
      [Event.write "c2" ("chat:" ++ "u1" ++ ":" ++ "hello:world" ++ "\n")] := by
  have h := chat_payload_verbatim [samplePA, samplePB] "p1" "hello:world" noFail samplePA
      (by decide) (by decide)
  rw [h.2.2]
  decide

/-- C8: a ping: frame from a registered participant produces exactly one
write, the pong: frame on the sender's own connection; nothing is broadcast
to anyone else and the registry is unchanged. -/
theorem ping_unicast_pong (l : Lobby) (pid : String) (fails : String → Bool)
    (p : Player) (hfind : l.find? (fun q => q.id == pid) = some p)
    (hreal : p.isReal = true) :
    processMessage l pid "ping:" fails = (l, [Event.write p.conn "pong:\n"]) := by
  have hs : splitFirstColon "ping:" = some ("ping", "") := by decide
  simp only [processMessage, hs, hfind, hreal]
  exact if_neg (by decide)

/-- Witness for C8 at a concrete two-player registry. -/
theorem ping_unicast_pong_witness :
    processMessage [samplePA, samplePB] "p1" "ping:" noFail =
      ([samplePA, samplePB], [Event.write "c1" "pong:\n"]) := by
  have h := ping_unicast_pong [samplePA, samplePB] "p1" noFail samplePA
      (by decide) (by decide)
  exact h

/-- C9 is false as stated: the id is player_<UnixNano>, so two admissions
that observe the same nanosecond clock reading are assigned the same id and
the second registry insert overwrites the first.  In this trace both
admissions happen at nanosecond 100; afterwards the registry holds a single
entry, with the second participant's username. -/
theorem same_nano_id_collision :
    (handleConn (handleConn [] "c1" "join:A" 100 5 noFail).1 "c2" "join:B" 100 6
        noFail).1.map Player.id = ["player_100"] ∧
    (handleConn (handleConn [] "c1" "join:A" 100 5 noFail).1 "c2" "join:B" 100 6
        noFail).1.map Player.username = ["B"] := by decide

/-- C9 amended: participant ids are a pure, injective function of the
admission-time nanosecond clock reading, so any two admissions that observe
distinct clock readings get distinct ids, and an id can recur (or be
reused after removal) only if the clock reading recurs. -/
theorem playerID_unique_of_distinct_times (t1 t2 : Nat) (h : t1 ≠ t2) :
    genPlayerID t1 ≠ genPlayerID t2 :=
  fun he => h (genPlayerID_inj t1 t2 he)

/-- Witness for C9 amended at clock readings 1 and 2. -/
theorem playerID_unique_witness : genPlayerID 1 ≠ genPlayerID 2 :=
  playerID_unique_of_distinct_times 1 2 (by decide)

/-- C10: broadcast leaves the registry exactly as it was in both variants:
the returned registry is the argument registry, every participant's fields
are unchanged, the main variant schedules no connection closure at all, and
the part_000 variant schedules closure of exactly the non-excluded
recipients whose write failed. -/
theorem broadcast_preserves_registry (l : Lobby) (message excludeID : String)
    (fails : String → Bool) :
    (broadcast l message excludeID fails).1 = l ∧
    (broadcastV2 l message excludeID fails).1 = l ∧
    (broadcast l message excludeID fails).1.map
        (fun p => (p.id, p.username, p.position, p.rotation, p.lastSeen)) =
      l.map (fun p => (p.id, p.username, p.position, p.rotation, p.lastSeen)) ∧
    closesOf (broadcast l message excludeID fails).2 = [] ∧
    closesOf (broadcastV2 l message excludeID fails).2 =
      (l.filter (fun p => p.id != excludeID && fails p.conn)).map
        (fun p => Event.close p.conn) :=
  ⟨rfl, rfl, rfl, closesOf_broadcastEvents l message excludeID fails,
   closesOf_broadcastEventsV2 l message excludeID fails⟩

end ForcedEntry
